import Mathlib

/-!
Verification of the `uuid7-typed` library (`src/index.ts`).

The library is a validation/utility layer over an external UUIDv7 generator:
a fixed-pattern regex validator, lexicographic string comparison, a 48-bit
hex timestamp decode, and generator wrappers.  Strings are modelled as Lean
`String` (the identifiers involved are ASCII, where JavaScript's UTF-16
code-unit order coincides with code-point order), thrown `Error`s as
`Except String`, `null`/`undefined` as `Option`, a JavaScript `Date` as its
millisecond value (`Option Nat`, `none` for an invalid date), and the
JavaScript `number` passed to `createMany` as a rational.
-/

/-- Character class `[0-9a-f]` of the validation regex under its `i`
(case-insensitive) flag: code points for `0`-`9` (48-57), `a`-`f` (97-102)
and `A`-`F` (65-70). -/
def isHexDigitChar (c : Char) : Bool :=
  (48 ≤ c.toNat && c.toNat ≤ 57) || (97 ≤ c.toNat && c.toNat ≤ 102) ||
    (65 ≤ c.toNat && c.toNat ≤ 70)

/-- Character class `[89ab]` of the validation regex under its `i` flag. -/
def isVariantChar (c : Char) : Bool :=
  c == '8' || c == '9' || c == 'a' || c == 'b' || c == 'A' || c == 'B'

/-- One token of the fixed-width validation regex: a single-character class. -/
inductive RTok where
  | hex
  | dash
  | seven
  | variant
deriving DecidableEq

/-- Whether a character matches a regex token (with the `i` flag). -/
def tokMatch : RTok → Char → Bool
  | RTok.hex, c => isHexDigitChar c
  | RTok.dash, c => c == '-'
  | RTok.seven, c => c == '7'
  | RTok.variant, c => isVariantChar c

/-- The token sequence of
`/^[0-9a-f]{8}-[0-9a-f]{4}-7[0-9a-f]{3}-[89ab][0-9a-f]{3}-[0-9a-f]{12}$/i`,
written group by group exactly as in the source regex. -/
def regexPattern : List RTok :=
  List.replicate 8 RTok.hex ++ [RTok.dash] ++
    List.replicate 4 RTok.hex ++ [RTok.dash] ++
    [RTok.seven] ++ List.replicate 3 RTok.hex ++ [RTok.dash] ++
    [RTok.variant] ++ List.replicate 3 RTok.hex ++ [RTok.dash] ++
    List.replicate 12 RTok.hex

/-- Anchored matching (`^...$`) of a fixed-width token sequence against a
character list: every token matches its character and the lengths agree. -/
def matchAll : List RTok → List Char → Bool
  | [], [] => true
  | t :: ts, c :: cs => tokMatch t c && matchAll ts cs
  | _, _ => false

/-- Numeric value of a base-16 digit character as recognised by JavaScript
`parseInt(_, 16)` (case-insensitive); `none` for a non-digit. -/
def hexDigitVal? (c : Char) : Option Nat :=
  if 48 ≤ c.toNat ∧ c.toNat ≤ 57 then some (c.toNat - 48)
  else if 97 ≤ c.toNat ∧ c.toNat ≤ 102 then some (c.toNat - 87)
  else if 65 ≤ c.toNat ∧ c.toNat ≤ 70 then some (c.toNat - 55)
  else none

/-- Digit value with default 0 (only used on actual hex digits). -/
def hexDigitVal (c : Char) : Nat := (hexDigitVal? c).getD 0

/-- Base-16 value of a digit string, most significant digit first. -/
def hexVal : List Char → Nat
  | [] => 0
  | c :: cs => hexDigitVal c * 16 ^ cs.length + hexVal cs

/-- Model of JavaScript `parseInt(s, 16)` for inputs that do not begin with
whitespace, a sign or a `0x` prefix (the only inputs this library feeds it):
the longest leading run of hex digits is parsed; no digit at all gives `NaN`,
modelled as `none`. -/
def parseIntHex (l : List Char) : Option Nat :=
  let ds := l.takeWhile fun c => (hexDigitVal? c).isSome
  if ds.isEmpty then none else some (hexVal ds)

/-- Model of JavaScript `s.slice(a, b)` for `0 ≤ a ≤ b`: the characters of
`s` at positions `[a, b)`, clipped to the length of `s`. -/
def jsSlice (s : String) (a b : Nat) : List Char := (s.data.take b).drop a

/-- JavaScript `<` on strings: lexicographic comparison of the character
sequences (code-unit order, which is code-point order on these strings). -/
def strLtB : List Char → List Char → Bool
  | [], [] => false
  | [], _ :: _ => true
  | _ :: _, [] => false
  | c :: cs, d :: ds =>
    if c.toNat < d.toNat then true
    else if d.toNat < c.toNat then false
    else strLtB cs ds

namespace UUID7Generator

/-- Model of `UUID7Generator.validateUUID7.test(s)`: the anchored regex applied to
the whole string. -/
def validateUUID7 (s : String) : Bool := matchAll regexPattern s.data

/-- Model of `UUID7Generator.isValid`. -/
def isValid (value : String) : Bool := validateUUID7 value

/-- Model of `UUID7Generator.create`.  The external generator call
`generator.generateOrAbort()?.toString() ?? ""` is modelled by an
`Option String` argument: `none` for an abort (yielding `""` after `?? ""`),
`some v` for a produced textual value.  `!value` is the JavaScript emptiness
test on the string. -/
def create (g : Option String) : Except String String :=
  let value := g.getD ""
  if value = "" ∨ validateUUID7 value = false then
    Except.error ("Invalid UUIDv7 format: " ++ value)
  else Except.ok value

/-- The element-by-element loop of `Array.from({length: n}, () => create())`
starting at call index `i`: each call consumes the next generator output. -/
def createSeq (gen : Nat → Option String) (i : Nat) : Nat → Except String (List String)
  | 0 => Except.ok []
  | n + 1 =>
    match create (gen i) with
    | Except.error e => Except.error e
    | Except.ok v =>
      match createSeq gen (i + 1) n with
      | Except.error e => Except.error e
      | Except.ok vs => Except.ok (v :: vs)

/-- Model of `UUID7Generator.createMany`.  The JavaScript `number` argument is
modelled as a rational; `Number.isInteger(count)` is `count.den = 1`. -/
def createMany (gen : Nat → Option String) (count : Rat) : Except String (List String) :=
  if count < 0 ∨ count.den ≠ 1 then
    Except.error ("Count must be a non-negative integer: " ++ toString count)
  else createSeq gen 0 count.num.toNat

/-- Model of `UUID7Generator.compare`: `if (a < b) return -1; if (a > b) return 1;
return 0;`. -/
def compare (a b : String) : Int :=
  if strLtB a.data b.data then -1
  else if strLtB b.data a.data then 1
  else 0

/-- Model of `UUID7Generator.fromString`. -/
def fromString (value : String) : Except String String :=
  if validateUUID7 value = false then
    Except.error ("Invalid UUIDv7 format: " ++ value)
  else Except.ok value

/-- Model of `UUID7Generator.tryFromString`. -/
def tryFromString (value : String) : Option String :=
  if isValid value then some value else none

/-- Model of `UUID7Generator.getTimestamp`:
`parseInt(uuid.slice(0, 8) + uuid.slice(9, 13), 16)` wrapped in `new Date`,
modelled by the millisecond value (`none` = invalid date from `NaN`). -/
def getTimestamp (uuid : String) : Option Nat :=
  parseIntHex (jsSlice uuid 0 8 ++ jsSlice uuid 9 13)

end UUID7Generator

/-- The structural pattern as the specification words it, position by
position: exactly 36 characters; hyphens exactly at positions 8, 13, 18, 23;
the version nibble at position 14 equal to `7`; the variant nibble at
position 19 in `{8,9,a,b}` case-insensitively; every other position a
case-insensitive hex digit. -/
def posOK (i : Nat) (c : Char) : Bool :=
  if i == 8 || i == 13 || i == 18 || i == 23 then c == '-'
  else if i == 14 then c == '7'
  else if i == 19 then isVariantChar c
  else isHexDigitChar c

/-- Spec-side structural pattern (§3 of the specification). -/
def uuid7StructuralPattern (s : String) : Bool :=
  s.data.length == 36 && (List.range 36).all fun i => posOK i (s.data.getD i ' ')

/-- A string containing no uppercase hex letter `A`-`F` (code points
65-70): its hex digits, if any, are all lowercase. -/
def lowercaseOnly (s : String) : Bool :=
  s.data.all fun c => !(65 ≤ c.toNat && c.toNat ≤ 70)

/-- Spec-side lexicographic (character-wise) strict order on strings. -/
def charLexLt (x y : List Char) : Prop :=
  List.Lex (fun c d : Char => c.toNat < d.toNat) x y

/-- A lowercase hex digit: `0`-`9` (48-57) or `a`-`f` (97-102). -/
def isLowerHexDigit (c : Char) : Bool :=
  (48 ≤ c.toNat && c.toNat ≤ 57) || (97 ≤ c.toNat && c.toNat ≤ 102)

/-- The anchored matcher succeeds exactly when tokens and characters
correspond pointwise. -/
theorem matchAll_iff : ∀ (ts : List RTok) (l : List Char),
    matchAll ts l = true ↔ List.Forall₂ (fun t c => tokMatch t c = true) ts l
  | [], [] => by simp [matchAll]
  | [], _ :: _ => by simp [matchAll]
  | _ :: _, [] => by simp [matchAll]
  | t :: ts, c :: cs => by
    simp [matchAll, List.forall₂_cons, matchAll_iff ts cs]

theorem regexPattern_length : regexPattern.length = 36 := by decide

/-- Position by position, the regex token is the positional character
condition of the specification. -/
theorem tok_eq_pos (i : Nat) (hi : i < 36) (c : Char) :
    tokMatch (regexPattern.getD i RTok.hex) c = posOK i c := by
  interval_cases i <;> rfl

/-- The source regex test, restated positionally. -/
theorem validateUUID7_iff_pos (s : String) :
    UUID7Generator.validateUUID7 s = true ↔
      s.data.length = 36 ∧ ∀ i, i < 36 → posOK i (s.data.getD i ' ') = true := by
  rw [UUID7Generator.validateUUID7, matchAll_iff, List.forall₂_iff_get]
  constructor
  · rintro ⟨h1, h2⟩
    have hlen : s.data.length = 36 := by
      rw [← h1, regexPattern_length]
    refine ⟨hlen, fun i hi => ?_⟩
    have h₁ : i < regexPattern.length := by rw [regexPattern_length]; exact hi
    have h₂ : i < s.data.length := by rw [hlen]; exact hi
    have := h2 i h₁ h₂
    rwa [List.get_eq_getElem, List.get_eq_getElem, ← List.getD_eq_getElem _ RTok.hex h₁,
      ← List.getD_eq_getElem _ ' ' h₂, tok_eq_pos i hi] at this
  · rintro ⟨hlen, hpos⟩
    have h1 : regexPattern.length = s.data.length := by rw [regexPattern_length, hlen]
    refine ⟨h1, fun i h₁ h₂ => ?_⟩
    have hi : i < 36 := by rw [← regexPattern_length]; exact h₁
    have := hpos i hi
    rwa [List.get_eq_getElem, List.get_eq_getElem, ← List.getD_eq_getElem _ RTok.hex h₁,
      ← List.getD_eq_getElem _ ' ' h₂, tok_eq_pos i hi]

/-- The spec-side structural pattern, restated positionally. -/
theorem structuralPattern_iff_pos (s : String) :
    uuid7StructuralPattern s = true ↔
      s.data.length = 36 ∧ ∀ i, i < 36 → posOK i (s.data.getD i ' ') = true := by
  simp [uuid7StructuralPattern, List.all_eq_true, List.mem_range]

/-- The regex test and the spec-side structural pattern agree on every
string. -/
theorem validateUUID7_eq_structuralPattern (s : String) :
    UUID7Generator.validateUUID7 s = uuid7StructuralPattern s := by
  have h := (validateUUID7_iff_pos s).trans (structuralPattern_iff_pos s).symm
  cases hv : UUID7Generator.validateUUID7 s with
  | true => exact (h.mp hv).symm
  | false =>
    cases hp : uuid7StructuralPattern s with
    | false => rfl
    | true => exact absurd (h.mpr hp) (by rw [hv]; exact Bool.false_ne_true)

theorem char_toNat_inj {c d : Char} (h : c.toNat = d.toNat) : c = d :=
  Char.ext (UInt32.toNat.inj h)

theorem strLtB_irrefl : ∀ x : List Char, strLtB x x = false
  | [] => rfl
  | _ :: cs => by simp [strLtB, strLtB_irrefl cs]

theorem strLtB_asymm : ∀ x y, strLtB x y = true → strLtB y x = false
  | [], [], h => by simp [strLtB] at h
  | [], _ :: _, _ => rfl
  | _ :: _, [], h => by simp [strLtB] at h
  | c :: cs, d :: ds, h => by
    by_cases h1 : c.toNat < d.toNat
    · have h2 : ¬ d.toNat < c.toNat := by omega
      simp [strLtB, h1, h2]
    · by_cases h2 : d.toNat < c.toNat
      · simp [strLtB, h1, h2] at h
      · simp only [strLtB, if_neg h1, if_neg h2] at h
        simp [strLtB, h1, h2, strLtB_asymm cs ds h]

theorem strLtB_eq_of_not_lt : ∀ x y, strLtB x y = false → strLtB y x = false → x = y
  | [], [], _, _ => rfl
  | [], _ :: _, h, _ => by simp [strLtB] at h
  | _ :: _, [], _, h => by simp [strLtB] at h
  | c :: cs, d :: ds, h, h2 => by
    by_cases h1 : c.toNat < d.toNat
    · simp [strLtB, h1] at h
    · by_cases h3 : d.toNat < c.toNat
      · simp [strLtB, h3] at h2
      · have hcd : c = d := char_toNat_inj (by omega)
        subst hcd
        simp only [strLtB, if_neg h1] at h h2
        rw [strLtB_eq_of_not_lt cs ds h h2]

/-- A strict difference inside equal-length prefixes decides the comparison
of the full strings, whatever the suffixes. -/
theorem strLtB_append_of_lt : ∀ (x y u v : List Char), x.length = y.length →
    strLtB x y = true → strLtB (x ++ u) (y ++ v) = true
  | [], [], _, _, _, h => by simp [strLtB] at h
  | [], _ :: _, _, _, hl, _ => by simp at hl
  | _ :: _, [], _, _, hl, _ => by simp at hl
  | c :: cs, d :: ds, u, v, hl, h => by
    simp only [List.length_cons, Nat.succ.injEq] at hl
    by_cases h1 : c.toNat < d.toNat
    · simp [strLtB, h1]
    · by_cases h2 : d.toNat < c.toNat
      · simp [strLtB, h1, h2] at h
      · simp only [strLtB, if_neg h1, if_neg h2] at h
        simp only [List.cons_append, strLtB, if_neg h1, if_neg h2]
        exact strLtB_append_of_lt cs ds u v hl h

/-- Comparison after a common prefix is comparison of the suffixes. -/
theorem strLtB_append_same : ∀ (p u v : List Char),
    strLtB (p ++ u) (p ++ v) = strLtB u v
  | [], _, _ => rfl
  | c :: p, u, v => by
    simp only [List.cons_append, strLtB, Nat.lt_irrefl, if_neg (Nat.lt_irrefl c.toNat)]
    exact strLtB_append_same p u v

/-- Fact: `strLtB` is the lexicographic (character-wise) strict order. -/
theorem strLtB_iff_charLexLt : ∀ x y : List Char, strLtB x y = true ↔ charLexLt x y
  | [], [] => by
    simp only [strLtB, charLexLt]
    exact ⟨fun h => by simp at h, fun h => by cases h⟩
  | [], d :: ds => by
    simp only [strLtB, charLexLt]
    exact ⟨fun _ => List.Lex.nil, fun _ => trivial⟩
  | c :: cs, [] => by
    simp only [strLtB, charLexLt]
    exact ⟨fun h => by simp at h, fun h => by cases h⟩
  | c :: cs, d :: ds => by
    constructor
    · intro h
      by_cases h1 : c.toNat < d.toNat
      · exact List.Lex.rel h1
      · by_cases h2 : d.toNat < c.toNat
        · simp [strLtB, h1, h2] at h
        · have hcd : c = d := char_toNat_inj (by omega)
          subst hcd
          simp only [strLtB, if_neg h1] at h
          exact List.Lex.cons ((strLtB_iff_charLexLt cs ds).mp h)
    · intro h
      cases h with
      | rel h1 => simp [strLtB, h1]
      | cons h1 =>
        simp only [strLtB, if_neg (Nat.lt_irrefl c.toNat)]
        exact (strLtB_iff_charLexLt cs ds).mpr h1

theorem hexDigitVal_lower {c : Char} (hc : isLowerHexDigit c = true) :
    (48 ≤ c.toNat ∧ c.toNat ≤ 57 ∧ hexDigitVal c = c.toNat - 48) ∨
      (97 ≤ c.toNat ∧ c.toNat ≤ 102 ∧ hexDigitVal c = c.toNat - 87) := by
  simp only [isLowerHexDigit, Bool.or_eq_true, Bool.and_eq_true,
    decide_eq_true_eq] at hc
  rcases hc with ⟨h1, h2⟩ | ⟨h1, h2⟩
  · exact Or.inl ⟨h1, h2, by simp [hexDigitVal, hexDigitVal?, h1, h2]⟩
  · refine Or.inr ⟨h1, h2, ?_⟩
    have h3 : ¬ (48 ≤ c.toNat ∧ c.toNat ≤ 57) := by omega
    simp [hexDigitVal, hexDigitVal?, h3, h1, h2]

/-- On lowercase hex digits, digit value order is character order. -/
theorem hexDigitVal_lt_iff {c d : Char} (hc : isLowerHexDigit c = true)
    (hd : isLowerHexDigit d = true) :
    hexDigitVal c < hexDigitVal d ↔ c.toNat < d.toNat := by
  rcases hexDigitVal_lower hc with ⟨a1, a2, a3⟩ | ⟨a1, a2, a3⟩ <;>
    rcases hexDigitVal_lower hd with ⟨b1, b2, b3⟩ | ⟨b1, b2, b3⟩ <;>
      rw [a3, b3] <;> omega

theorem hexDigitVal_le_15 (c : Char) : hexDigitVal c ≤ 15 := by
  simp only [hexDigitVal, hexDigitVal?]
  split_ifs with h1 h2 h3 <;> simp [Option.getD] <;> omega

theorem hexVal_lt (l : List Char) : hexVal l < 16 ^ l.length := by
  induction l with
  | nil => simp [hexVal]
  | cons c cs ih =>
    simp only [hexVal, List.length_cons, pow_succ]
    calc hexDigitVal c * 16 ^ cs.length + hexVal cs
        < hexDigitVal c * 16 ^ cs.length + 16 ^ cs.length := by omega
      _ ≤ 15 * 16 ^ cs.length + 16 ^ cs.length :=
          Nat.add_le_add_right (Nat.mul_le_mul_right _ (hexDigitVal_le_15 c)) _
      _ = 16 ^ cs.length * 16 := by ring

theorem hexVal_append : ∀ x y : List Char,
    hexVal (x ++ y) = hexVal x * 16 ^ y.length + hexVal y
  | [], y => by simp [hexVal]
  | c :: cs, y => by
    simp only [List.cons_append, hexVal, List.append_eq, hexVal_append cs y,
      List.length_append, pow_add]
    ring

/-- Fixed-width lowercase hex numerals compare numerically exactly as they
compare lexicographically. -/
theorem hexVal_lt_iff_strLtB : ∀ x y : List Char, x.length = y.length →
    (∀ c ∈ x, isLowerHexDigit c = true) → (∀ c ∈ y, isLowerHexDigit c = true) →
    (hexVal x < hexVal y ↔ strLtB x y = true)
  | [], [], _, _, _ => by simp [hexVal, strLtB]
  | [], _ :: _, hl, _, _ => by simp at hl
  | _ :: _, [], hl, _, _ => by simp at hl
  | c :: cs, d :: ds, hl, hx, hy => by
    simp only [List.length_cons, Nat.succ.injEq] at hl
    have hc := hx c (List.mem_cons_self c cs)
    have hd := hy d (List.mem_cons_self d ds)
    have hcs : ∀ e ∈ cs, isLowerHexDigit e = true :=
      fun e he => hx e (List.mem_cons_of_mem _ he)
    have hds : ∀ e ∈ ds, isLowerHexDigit e = true :=
      fun e he => hy e (List.mem_cons_of_mem _ he)
    have hbx := hexVal_lt cs
    have hby := hexVal_lt ds
    rw [hl] at hbx
    simp only [hexVal, strLtB, hl]
    rcases Nat.lt_trichotomy c.toNat d.toNat with h1 | h1 | h1
    · rw [if_pos h1]
      refine iff_of_true ?_ rfl
      have h2 : (hexDigitVal c + 1) * 16 ^ ds.length ≤ hexDigitVal d * 16 ^ ds.length :=
        Nat.mul_le_mul_right _ (by
          have := (hexDigitVal_lt_iff hc hd).mpr h1
          omega)
      rw [Nat.add_mul, Nat.one_mul] at h2
      omega
    · have hcd : c = d := char_toNat_inj h1
      subst hcd
      rw [if_neg (Nat.lt_irrefl _), if_neg (Nat.lt_irrefl _), add_lt_add_iff_left]
      exact hexVal_lt_iff_strLtB cs ds hl hcs hds
    · rw [if_neg (by omega), if_pos h1]
      refine iff_of_false ?_ (by simp)
      have h2 : (hexDigitVal d + 1) * 16 ^ ds.length ≤ hexDigitVal c * 16 ^ ds.length :=
        Nat.mul_le_mul_right _ (by
          have := (hexDigitVal_lt_iff hd hc).mpr h1
          omega)
      rw [Nat.add_mul, Nat.one_mul] at h2
      omega

/-- Fixed-width lowercase hex numerals with equal values are equal strings. -/
theorem hexVal_inj {x y : List Char} (hl : x.length = y.length)
    (hx : ∀ c ∈ x, isLowerHexDigit c = true) (hy : ∀ c ∈ y, isLowerHexDigit c = true)
    (h : hexVal x = hexVal y) : x = y := by
  rcases Bool.eq_false_or_eq_true (strLtB x y) with ht | hf
  · exact absurd ((hexVal_lt_iff_strLtB x y hl hx hy).mpr ht) (by omega)
  · rcases Bool.eq_false_or_eq_true (strLtB y x) with ht2 | hf2
    · exact absurd ((hexVal_lt_iff_strLtB y x hl.symm hy hx).mpr ht2) (by omega)
    · exact strLtB_eq_of_not_lt x y hf hf2

/-- Away from the four hyphens and the version/variant nibbles, the
positional condition is the hex-digit class. -/
theorem posOK_hex {i : Nat} (h8 : i ≠ 8) (h13 : i ≠ 13) (h18 : i ≠ 18) (h23 : i ≠ 23)
    (h14 : i ≠ 14) (h19 : i ≠ 19) (c : Char) : posOK i c = isHexDigitChar c := by
  simp only [posOK]
  rw [if_neg (by simp [h8, h13, h18, h23]), if_neg (by simp [h14]),
    if_neg (by simp [h19])]

theorem valid_length (s : String) (h : UUID7Generator.validateUUID7 s = true) :
    s.data.length = 36 := ((validateUUID7_iff_pos s).mp h).1

theorem valid_getElem_pos (s : String) (h : UUID7Generator.validateUUID7 s = true)
    (i : Nat) (hi : i < 36) (hil : i < s.data.length) :
    posOK i s.data[i] = true := by
  have h2 := ((validateUUID7_iff_pos s).mp h).2 i hi
  rwa [List.getD_eq_getElem _ _ hil] at h2

/-- A validated string splits as `group1 ++ "-" ++ group2 ++ "-" ++ rest`
with `group1`/`group2` the two timestamp slices, made of hex digits. -/
theorem valid_decomp (s : String) (h : UUID7Generator.validateUUID7 s = true) :
    s.data = jsSlice s 0 8 ++ '-' :: (jsSlice s 9 13 ++ '-' :: s.data.drop 14) ∧
      (jsSlice s 0 8).length = 8 ∧ (jsSlice s 9 13).length = 4 ∧
      (∀ c ∈ jsSlice s 0 8, isHexDigitChar c = true) ∧
      (∀ c ∈ jsSlice s 9 13, isHexDigitChar c = true) := by
  have hlen := valid_length s h
  have h8lt : (8:Nat) < s.data.length := by omega
  have h13lt : (13:Nat) < s.data.length := by omega
  have c8 : s.data[8] = '-' := by
    have hp := valid_getElem_pos s h 8 (by omega) h8lt
    simpa [posOK] using hp
  have c13 : s.data[13] = '-' := by
    have hp := valid_getElem_pos s h 13 (by omega) h13lt
    simpa [posOK] using hp
  have e0 : jsSlice s 0 8 = s.data.take 8 := List.drop_zero _
  have e1 : jsSlice s 9 13 = (s.data.take 13).drop 9 := rfl
  have d8 : s.data.drop 8 = '-' :: s.data.drop 9 := by
    rw [List.drop_eq_getElem_cons h8lt, c8]
  have d9 : s.data.drop 9 = (s.data.take 13).drop 9 ++ s.data.drop 13 := by
    conv_lhs => rw [← List.take_append_drop 13 s.data]
    rw [List.drop_append_of_le_length (by rw [List.length_take]; omega)]
  have d13 : s.data.drop 13 = '-' :: s.data.drop 14 := by
    rw [List.drop_eq_getElem_cons h13lt, c13]
  refine ⟨?_, ?_, ?_, ?_, ?_⟩
  · rw [e0, e1]
    conv_lhs => rw [← List.take_append_drop 8 s.data]
    rw [d8, d9, d13]
  · rw [e0, List.length_take]; omega
  · rw [e1, List.length_drop, List.length_take]; omega
  · intro c hc
    rw [e0] at hc
    obtain ⟨i, hilt, hieq⟩ := List.mem_iff_getElem.mp hc
    have hi8 : i < 8 := by
      rw [List.length_take] at hilt; omega
    have hilen : i < s.data.length := by omega
    have he : (s.data.take 8)[i] = s.data[i] := List.getElem_take s.data
    have hp := valid_getElem_pos s h i (by omega) hilen
    rw [posOK_hex (by omega) (by omega) (by omega) (by omega) (by omega) (by omega)] at hp
    rw [← hieq, he]
    exact hp
  · intro c hc
    rw [e1] at hc
    obtain ⟨i, hilt, hieq⟩ := List.mem_iff_getElem.mp hc
    have hi4 : i < 4 := by
      rw [List.length_drop, List.length_take] at hilt; omega
    have h9i : 9 + i < (s.data.take 13).length := by
      rw [List.length_take]; omega
    have h9il : 9 + i < s.data.length := by omega
    have he : ((s.data.take 13).drop 9)[i] = (s.data.take 13)[9 + i] :=
      List.getElem_drop _
    have he2 : (s.data.take 13)[9 + i] = s.data[9 + i] := List.getElem_take s.data
    have hp := valid_getElem_pos s h (9 + i) (by omega) h9il
    rw [posOK_hex (by omega) (by omega) (by omega) (by omega) (by omega) (by omega)] at hp
    rw [← hieq, he, he2]
    exact hp

theorem hexDigitVal?_isSome_of_hex {c : Char} (hc : isHexDigitChar c = true) :
    (hexDigitVal? c).isSome = true := by
  simp only [isHexDigitChar, Bool.or_eq_true, Bool.and_eq_true,
    decide_eq_true_eq] at hc
  simp only [hexDigitVal?]
  split_ifs with h1 h2 h3
  · rfl
  · rfl
  · rfl
  · exfalso
    omega

theorem takeWhile_all {p : Char → Bool} : ∀ l : List Char,
    (∀ c ∈ l, p c = true) → l.takeWhile p = l
  | [], _ => rfl
  | c :: cs, h => by
    rw [List.takeWhile_cons, if_pos (h c (List.mem_cons_self c cs)),
      takeWhile_all cs fun e he => h e (List.mem_cons_of_mem _ he)]

/-- On a validated string, the timestamp decode consumes exactly the twelve
sliced hex digits and never produces `NaN`. -/
theorem getTimestamp_of_valid (s : String)
    (h : UUID7Generator.validateUUID7 s = true) :
    UUID7Generator.getTimestamp s =
      some (hexVal (jsSlice s 0 8 ++ jsSlice s 9 13)) := by
  obtain ⟨_, hl1, hl2, hx1, hx2⟩ := valid_decomp s h
  have hall : ∀ c ∈ jsSlice s 0 8 ++ jsSlice s 9 13, (hexDigitVal? c).isSome = true := by
    intro c hc
    rcases List.mem_append.mp hc with h1 | h1
    · exact hexDigitVal?_isSome_of_hex (hx1 c h1)
    · exact hexDigitVal?_isSome_of_hex (hx2 c h1)
  have hne : jsSlice s 0 8 ++ jsSlice s 9 13 ≠ [] := by
    intro he
    have : (jsSlice s 0 8 ++ jsSlice s 9 13).length = 0 := by rw [he]; rfl
    rw [List.length_append, hl1, hl2] at this
    omega
  simp only [UUID7Generator.getTimestamp, parseIntHex]
  rw [takeWhile_all _ hall, if_neg (by simp [List.isEmpty_iff, hne])]

/-- The decoded timestamp of a validated string is below `2^48`. -/
theorem getTimestamp_lt_of_valid (s : String)
    (h : UUID7Generator.validateUUID7 s = true) :
    ∃ n, UUID7Generator.getTimestamp s = some n ∧ n < 2 ^ 48 := by
  obtain ⟨_, hl1, hl2, _, _⟩ := valid_decomp s h
  refine ⟨_, getTimestamp_of_valid s h, ?_⟩
  have hb := hexVal_lt (jsSlice s 0 8 ++ jsSlice s 9 13)
  rw [List.length_append, hl1, hl2] at hb
  calc hexVal (jsSlice s 0 8 ++ jsSlice s 9 13) < 16 ^ (8 + 4) := hb
    _ = 2 ^ 48 := by norm_num

theorem lowercaseOnly_mem {s : String} (h : lowercaseOnly s = true) {c : Char}
    (hc : c ∈ s.data) : ¬(65 ≤ c.toNat ∧ c.toNat ≤ 70) := by
  simp only [lowercaseOnly, List.all_eq_true] at h
  have h2 := h c hc
  simp at h2
  omega

theorem isLowerHexDigit_of_hex_lower {c : Char} (hh : isHexDigitChar c = true)
    (hl : ¬(65 ≤ c.toNat ∧ c.toNat ≤ 70)) : isLowerHexDigit c = true := by
  simp only [isHexDigitChar, Bool.or_eq_true, Bool.and_eq_true,
    decide_eq_true_eq] at hh
  simp only [isLowerHexDigit, Bool.or_eq_true, Bool.and_eq_true,
    decide_eq_true_eq]
  omega

/-- Core of the chronological-order property: on validated all-lowercase
identifiers, a strictly smaller embedded timestamp forces strictly smaller
lexicographic order of the full strings. -/
theorem strLtB_of_ts_lt (a b : String)
    (ha : UUID7Generator.validateUUID7 a = true)
    (hb : UUID7Generator.validateUUID7 b = true)
    (hla : lowercaseOnly a = true) (hlb : lowercaseOnly b = true)
    (ta tb : Nat) (hta : UUID7Generator.getTimestamp a = some ta)
    (htb : UUID7Generator.getTimestamp b = some tb) (hlt : ta < tb) :
    strLtB a.data b.data = true := by
  obtain ⟨hadec, hal1, hal2, hax1, hax2⟩ := valid_decomp a ha
  obtain ⟨hbdec, hbl1, hbl2, hbx1, hbx2⟩ := valid_decomp b hb
  rw [getTimestamp_of_valid a ha] at hta
  rw [getTimestamp_of_valid b hb] at htb
  have hta2 : ta = hexVal (jsSlice a 0 8) * 16 ^ 4 + hexVal (jsSlice a 9 13) := by
    rw [← Option.some.inj hta, hexVal_append, hal2]
  have htb2 : tb = hexVal (jsSlice b 0 8) * 16 ^ 4 + hexVal (jsSlice b 9 13) := by
    rw [← Option.some.inj htb, hexVal_append, hbl2]
  have hA1low : ∀ c ∈ jsSlice a 0 8, isLowerHexDigit c = true := fun c hc =>
    isLowerHexDigit_of_hex_lower (hax1 c hc)
      (lowercaseOnly_mem hla (by rw [hadec]; simp [hc]))
  have hA2low : ∀ c ∈ jsSlice a 9 13, isLowerHexDigit c = true := fun c hc =>
    isLowerHexDigit_of_hex_lower (hax2 c hc)
      (lowercaseOnly_mem hla (by rw [hadec]; simp [hc]))
  have hB1low : ∀ c ∈ jsSlice b 0 8, isLowerHexDigit c = true := fun c hc =>
    isLowerHexDigit_of_hex_lower (hbx1 c hc)
      (lowercaseOnly_mem hlb (by rw [hbdec]; simp [hc]))
  have hB2low : ∀ c ∈ jsSlice b 9 13, isLowerHexDigit c = true := fun c hc =>
    isLowerHexDigit_of_hex_lower (hbx2 c hc)
      (lowercaseOnly_mem hlb (by rw [hbdec]; simp [hc]))
  have hA2b := hexVal_lt (jsSlice a 9 13)
  have hB2b := hexVal_lt (jsSlice b 9 13)
  rw [hal2] at hA2b
  rw [hbl2] at hB2b
  norm_num at hta2 htb2 hA2b hB2b
  rcases Nat.lt_or_ge (hexVal (jsSlice a 0 8)) (hexVal (jsSlice b 0 8)) with h1 | h1
  · have hlex1 : strLtB (jsSlice a 0 8) (jsSlice b 0 8) = true :=
      (hexVal_lt_iff_strLtB _ _ (by rw [hal1, hbl1]) hA1low hB1low).mp h1
    rw [hadec, hbdec]
    exact strLtB_append_of_lt _ _ _ _ (by rw [hal1, hbl1]) hlex1
  · have heq : hexVal (jsSlice a 0 8) = hexVal (jsSlice b 0 8) := by omega
    have hEq : jsSlice a 0 8 = jsSlice b 0 8 :=
      hexVal_inj (by rw [hal1, hbl1]) hA1low hB1low heq
    have hlt2 : hexVal (jsSlice a 9 13) < hexVal (jsSlice b 9 13) := by omega
    have hlex2 : strLtB (jsSlice a 9 13) (jsSlice b 9 13) = true :=
      (hexVal_lt_iff_strLtB _ _ (by rw [hal2, hbl2]) hA2low hB2low).mp hlt2
    rw [hadec, hbdec, ← hEq, strLtB_append_same]
    show strLtB ('-' :: _) ('-' :: _) = true
    rw [strLtB, if_neg (Nat.lt_irrefl _), if_neg (Nat.lt_irrefl _)]
    exact strLtB_append_of_lt _ _ _ _ (by rw [hal2, hbl2]) hlex2

theorem string_data_inj {a b : String} (h : a.data = b.data) : a = b := by
  cases a with
  | mk d1 => cases b with
    | mk d2 => exact congrArg String.mk h

theorem create_ok_valid {g : Option String} {v : String}
    (h : UUID7Generator.create g = Except.ok v) : UUID7Generator.isValid v = true := by
  simp only [UUID7Generator.create] at h
  by_cases hc : g.getD "" = "" ∨ UUID7Generator.validateUUID7 (g.getD "") = false
  · rw [if_pos hc] at h
    exact absurd h (by simp)
  · rw [if_neg hc] at h
    push_neg at hc
    rcases Bool.eq_false_or_eq_true (UUID7Generator.validateUUID7 (g.getD "")) with h2 | h2
    · rw [← Except.ok.inj h]
      exact h2
    · exact absurd h2 hc.2

/-- With a generator whose every output passes `create`, the generation
loop returns all the created values, in call order. -/
theorem createSeq_ok (gen : Nat → Option String)
    (hgen : ∀ i, ∃ v, UUID7Generator.create (gen i) = Except.ok v) :
    ∀ n i, ∃ l, UUID7Generator.createSeq gen i n = Except.ok l ∧ l.length = n ∧
      (∀ j (hj : j < l.length),
        UUID7Generator.create (gen (i + j)) = Except.ok (l.get ⟨j, hj⟩)) ∧
      (∀ v ∈ l, UUID7Generator.isValid v = true)
  | 0, i => ⟨[], rfl, rfl, fun j hj => absurd hj (by simp), by simp⟩
  | n + 1, i => by
    obtain ⟨v, hv⟩ := hgen i
    obtain ⟨l, hl, hlen, hidx, hval⟩ := createSeq_ok gen hgen n (i + 1)
    refine ⟨v :: l, ?_, by simp [hlen], ?_, ?_⟩
    · rw [UUID7Generator.createSeq, hv, hl]
    · intro j hj
      cases j with
      | zero => simpa using hv
      | succ k =>
        have hk : k < l.length := by simpa using hj
        have hx := hidx k hk
        rw [show i + (k + 1) = (i + 1) + k by omega]
        simpa using hx
    · intro w hw
      rcases List.mem_cons.mp hw with rfl | hw2
      · exact create_ok_valid hv
      · exact hval w hw2

/-- C1: for every string, `isValid` returns true iff the value matches the
UUIDv7 structural pattern — exactly 36 characters, hyphens exactly at
positions 8, 13, 18, 23, version nibble `7` at position 14, variant nibble
in `{8,9,a,b}` (case-insensitive) at position 19, every other position a
case-insensitive hex digit.  `isValid` is a total Boolean function, so it
never throws. -/
theorem claim1_isValid_iff_structural (value : String) :
    UUID7Generator.isValid value = true ↔ uuid7StructuralPattern value = true := by
  rw [UUID7Generator.isValid, validateUUID7_eq_structuralPattern]

/-- C2 as written is false: these two identifiers are both valid (hex
digits are case-insensitive), the first embeds timestamp 10 and the second
timestamp 11, yet `compare` returns 1 (not -1) on them because the
lowercase digit `a` (code point 97) sorts after the uppercase digit `B`
(code point 66). -/
theorem claim2_counterexample :
    UUID7Generator.isValid "00000000-000a-7000-8000-000000000000" = true ∧
      UUID7Generator.isValid "00000000-000B-7000-8000-000000000000" = true ∧
      UUID7Generator.getTimestamp "00000000-000a-7000-8000-000000000000" = some 10 ∧
      UUID7Generator.getTimestamp "00000000-000B-7000-8000-000000000000" = some 11 ∧
      UUID7Generator.compare "00000000-000a-7000-8000-000000000000"
        "00000000-000B-7000-8000-000000000000" = 1 := by
  refine ⟨by decide, by decide, by decide, by decide, by decide⟩

/-- C2 (amended to identifiers whose hex digits are all lowercase, the form
the generator emits): for valid all-lowercase identifiers with strictly
increasing embedded timestamps, `compare a b = -1` and `compare b a = 1`;
and `compare a a = 0` for every string. -/
theorem claim2_compare_chronological :
    (∀ a b ta tb, UUID7Generator.isValid a = true → UUID7Generator.isValid b = true →
      lowercaseOnly a = true → lowercaseOnly b = true →
      UUID7Generator.getTimestamp a = some ta →
      UUID7Generator.getTimestamp b = some tb → ta < tb →
      UUID7Generator.compare a b = -1 ∧ UUID7Generator.compare b a = 1) ∧
    ∀ a, UUID7Generator.compare a a = 0 := by
  constructor
  · intro a b ta tb ha hb hla hlb hta htb hlt
    have h1 := strLtB_of_ts_lt a b ha hb hla hlb ta tb hta htb hlt
    have h2 := strLtB_asymm _ _ h1
    constructor
    · rw [UUID7Generator.compare, if_pos h1]
    · rw [UUID7Generator.compare, if_neg (by rw [h2]; simp), if_pos h1]
  · intro a
    rw [UUID7Generator.compare, if_neg (by rw [strLtB_irrefl]; simp),
      if_neg (by rw [strLtB_irrefl]; simp)]

theorem claim2_witness :
    UUID7Generator.compare "00000000-0000-7000-8000-000000000000"
        "00000000-0001-7000-8000-000000000000" = -1 ∧
      UUID7Generator.compare "00000000-0001-7000-8000-000000000000"
        "00000000-0000-7000-8000-000000000000" = 1 :=
  claim2_compare_chronological.1 _ _ 0 1 (by decide) (by decide) (by decide)
    (by decide) (by decide) (by decide) (by decide)

/-- C3: `getTimestamp` takes the characters at positions `[0,8)` and
`[9,13)`, concatenates them and parses them as one base-16 integer with no
failure path on valid input; on the reference literal it yields
`0x01923f4a7b3d` milliseconds. -/
theorem claim3_getTimestamp_decode :
    (∀ s, UUID7Generator.isValid s = true →
      UUID7Generator.getTimestamp s =
        some (hexVal (jsSlice s 0 8 ++ jsSlice s 9 13))) ∧
    UUID7Generator.getTimestamp "01923f4a-7b3d-7123-8456-426614174000" =
      some 0x01923f4a7b3d :=
  ⟨fun s hs => getTimestamp_of_valid s hs, by decide⟩

theorem claim3_witness :
    UUID7Generator.getTimestamp "01923f4a-7b3d-7123-8456-426614174000" =
      some (hexVal (jsSlice "01923f4a-7b3d-7123-8456-426614174000" 0 8 ++
        jsSlice "01923f4a-7b3d-7123-8456-426614174000" 9 13)) :=
  claim3_getTimestamp_decode.1 _ (by decide)

/-- C9: on every string accepted by `isValid`, the decoded millisecond
value is a well-defined natural number strictly below `2^48` (the parse of
the fixed 12-hex-digit prefix never yields `NaN`). -/
theorem claim9_timestamp_bound (s : String) (h : UUID7Generator.isValid s = true) :
    ∃ n, UUID7Generator.getTimestamp s = some n ∧ n < 2 ^ 48 :=
  getTimestamp_lt_of_valid s h

theorem claim9_witness :
    ∃ n, UUID7Generator.getTimestamp "01923f4a-7b3d-7123-8456-426614174000" =
      some n ∧ n < 2 ^ 48 :=
  claim9_timestamp_bound _ (by decide)

/-- C4: on every `isValid` input, `fromString` succeeds and returns the
input string itself (no normalization, case preserved), and the result is
again valid. -/
theorem claim4_fromString_roundtrip (s : String)
    (h : UUID7Generator.isValid s = true) :
    ∃ v, UUID7Generator.fromString s = Except.ok v ∧ v = s ∧
      UUID7Generator.isValid v = true := by
  have hv : UUID7Generator.validateUUID7 s = true := h
  refine ⟨s, ?_, rfl, h⟩
  rw [UUID7Generator.fromString, if_neg (by rw [hv]; simp)]

theorem claim4_witness :
    ∃ v, UUID7Generator.fromString "01923f4a-7b3d-7123-8456-426614174000" =
        Except.ok v ∧ v = "01923f4a-7b3d-7123-8456-426614174000" ∧
      UUID7Generator.isValid v = true :=
  claim4_fromString_roundtrip _ (by decide)

/-- C5: every string failing the structural pattern is rejected by
`isValid` (false), by `fromString` (error whose message embeds the
offending value), and by `tryFromString` (`none`, no error); and
`tryFromString` succeeds with a value exactly when `fromString` succeeds
with that value. -/
theorem claim5_rejection :
    (∀ s, uuid7StructuralPattern s = false →
      UUID7Generator.isValid s = false ∧
      UUID7Generator.fromString s =
        Except.error ("Invalid UUIDv7 format: " ++ s) ∧
      UUID7Generator.tryFromString s = none) ∧
    ∀ s v, UUID7Generator.tryFromString s = some v ↔
      UUID7Generator.fromString s = Except.ok v := by
  constructor
  · intro s hp
    have hv : UUID7Generator.validateUUID7 s = false := by
      rw [validateUUID7_eq_structuralPattern, hp]
    refine ⟨hv, ?_, ?_⟩
    · rw [UUID7Generator.fromString, if_pos hv]
    · rw [UUID7Generator.tryFromString,
        if_neg (by rw [show UUID7Generator.isValid s = false from hv]; simp)]
  · intro s v
    rcases Bool.eq_false_or_eq_true (UUID7Generator.isValid s) with hv | hv
    · rw [UUID7Generator.tryFromString, if_pos hv, UUID7Generator.fromString,
        if_neg (by rw [show UUID7Generator.validateUUID7 s = true from hv]; simp)]
      constructor
      · intro h
        rw [Option.some.inj h]
      · intro h
        rw [Except.ok.inj h]
    · rw [UUID7Generator.tryFromString, if_neg (by rw [hv]; simp),
        UUID7Generator.fromString,
        if_pos (show UUID7Generator.validateUUID7 s = false from hv)]
      exact iff_of_false (by simp) (by simp)

theorem claim5_witness :
    UUID7Generator.isValid "not-a-uuid" = false ∧
      UUID7Generator.fromString "not-a-uuid" =
        Except.error ("Invalid UUIDv7 format: " ++ "not-a-uuid") ∧
      UUID7Generator.tryFromString "not-a-uuid" = none :=
  claim5_rejection.1 "not-a-uuid" (by decide)

/-- C8: `compare` returns -1 exactly when `a` sorts lexicographically
(character-wise) before `b`, 1 exactly when `a` sorts after `b`, and 0
exactly when the two strings are textually identical; it is a total
function, so it has no failure path. -/
theorem claim8_compare_lexicographic (a b : String) :
    (UUID7Generator.compare a b = -1 ↔ charLexLt a.data b.data) ∧
      (UUID7Generator.compare a b = 1 ↔ charLexLt b.data a.data) ∧
      (UUID7Generator.compare a b = 0 ↔ a = b) := by
  have e1 := strLtB_iff_charLexLt a.data b.data
  have e2 := strLtB_iff_charLexLt b.data a.data
  rcases Bool.eq_false_or_eq_true (strLtB a.data b.data) with hab | hab
  · have hba : strLtB b.data a.data = false := strLtB_asymm _ _ hab
    have hc : UUID7Generator.compare a b = -1 := by
      rw [UUID7Generator.compare, if_pos hab]
    refine ⟨⟨fun _ => e1.mp hab, fun _ => hc⟩, ?_, ?_⟩
    · constructor
      · intro h
        rw [hc] at h
        exact absurd h (by decide)
      · intro hl
        rw [← e2, hba] at hl
        exact absurd hl (by simp)
    · constructor
      · intro h
        rw [hc] at h
        exact absurd h (by decide)
      · intro heq
        subst heq
        rw [strLtB_irrefl] at hab
        exact absurd hab (by simp)
  · rcases Bool.eq_false_or_eq_true (strLtB b.data a.data) with hba | hba
    · have hc : UUID7Generator.compare a b = 1 := by
        rw [UUID7Generator.compare, if_neg (by rw [hab]; simp), if_pos hba]
      refine ⟨?_, ⟨fun _ => e2.mp hba, fun _ => hc⟩, ?_⟩
      · constructor
        · intro h
          rw [hc] at h
          exact absurd h (by decide)
        · intro hl
          rw [← e1, hab] at hl
          exact absurd hl (by simp)
      · constructor
        · intro h
          rw [hc] at h
          exact absurd h (by decide)
        · intro heq
          subst heq
          rw [strLtB_irrefl] at hba
          exact absurd hba (by simp)
    · have heq : a = b := string_data_inj (strLtB_eq_of_not_lt a.data b.data hab hba)
      have hc : UUID7Generator.compare a b = 0 := by
        rw [UUID7Generator.compare, if_neg (by rw [hab]; simp),
          if_neg (by rw [hba]; simp)]
      refine ⟨?_, ?_, ⟨fun _ => heq, fun _ => hc⟩⟩
      · constructor
        · intro h
          rw [hc] at h
          exact absurd h (by decide)
        · intro hl
          rw [← e1, hab] at hl
          exact absurd hl (by simp)
      · constructor
        · intro h
          rw [hc] at h
          exact absurd h (by decide)
        · intro hl
          rw [← e2, hba] at hl
          exact absurd hl (by simp)

/-- C7: every value `create` returns satisfies `isValid`, and `create`
fails exactly when the external generator aborts (`none`), returns an empty
value, or returns a value failing structural validation. -/
theorem claim7_create (g : Option String) :
    (∀ v, UUID7Generator.create g = Except.ok v →
      UUID7Generator.isValid v = true) ∧
    ((∃ e, UUID7Generator.create g = Except.error e) ↔
      (g = none ∨ g = some "" ∨
        ∃ v, g = some v ∧ UUID7Generator.isValid v = false)) := by
  refine ⟨fun v hv => create_ok_valid hv, ?_⟩
  cases g with
  | none =>
    refine iff_of_true ⟨"Invalid UUIDv7 format: ", rfl⟩ (Or.inl rfl)
  | some v =>
    by_cases h1 : v = "" ∨ UUID7Generator.validateUUID7 v = false
    · have he : UUID7Generator.create (some v) =
          Except.error ("Invalid UUIDv7 format: " ++ v) := by
        simp only [UUID7Generator.create, Option.getD_some]
        rw [if_pos h1]
      refine iff_of_true ⟨_, he⟩ ?_
      rcases h1 with h1 | h1
      · exact Or.inr (Or.inl (by rw [h1]))
      · exact Or.inr (Or.inr ⟨v, rfl, h1⟩)
    · push_neg at h1
      have ho : UUID7Generator.create (some v) = Except.ok v := by
        simp only [UUID7Generator.create, Option.getD_some]
        rw [if_neg (by push_neg; exact h1)]
      refine iff_of_false ?_ ?_
      · rintro ⟨e, he⟩
        rw [ho] at he
        exact absurd he (by simp)
      · rintro (h | h | ⟨w, hw, hwval⟩)
        · exact absurd h (by simp)
        · exact absurd (Option.some.inj h) h1.1
        · rw [← Option.some.inj hw] at hwval
          exact h1.2 hwval

theorem claim7_witness :
    UUID7Generator.isValid "01923f4a-7b3d-7123-8456-426614174000" = true ∧
      ∃ e, UUID7Generator.create none = Except.error e :=
  ⟨(claim7_create (some "01923f4a-7b3d-7123-8456-426614174000")).1
      "01923f4a-7b3d-7123-8456-426614174000" (by rfl),
    (claim7_create none).2.mpr (Or.inl rfl)⟩

/-- C6: with a well-behaved generator, `createMany` fails — with the given
count embedded in the message — exactly when the count is negative or not
an integer; for an integral count ≥ 0 it returns exactly that many
identifiers, each produced by `create` in call order and each valid; and
count 0 yields the empty sequence, not an error. -/
theorem claim6_createMany (gen : Nat → Option String) (count : Rat)
    (hgen : ∀ i, ∃ v, UUID7Generator.create (gen i) = Except.ok v) :
    (UUID7Generator.createMany gen count =
        Except.error ("Count must be a non-negative integer: " ++ toString count) ↔
      (count < 0 ∨ count.den ≠ 1)) ∧
    (¬(count < 0 ∨ count.den ≠ 1) →
      ∃ l, UUID7Generator.createMany gen count = Except.ok l ∧
        l.length = count.num.toNat ∧
        (∀ i (hi : i < l.length),
          UUID7Generator.create (gen i) = Except.ok (l.get ⟨i, hi⟩)) ∧
        (∀ v ∈ l, UUID7Generator.isValid v = true)) ∧
    UUID7Generator.createMany gen 0 = Except.ok [] := by
  refine ⟨?_, ?_, ?_⟩
  · constructor
    · intro he
      by_contra hc
      rw [UUID7Generator.createMany, if_neg hc] at he
      obtain ⟨l, hl, _, _, _⟩ := createSeq_ok gen hgen count.num.toNat 0
      rw [hl] at he
      exact absurd he (by simp)
    · intro hc
      rw [UUID7Generator.createMany, if_pos hc]
  · intro hc
    obtain ⟨l, hl, hlen, hidx, hval⟩ := createSeq_ok gen hgen count.num.toNat 0
    refine ⟨l, ?_, hlen, ?_, hval⟩
    · rw [UUID7Generator.createMany, if_neg hc]
      exact hl
    · intro i hi
      have := hidx i hi
      rwa [Nat.zero_add] at this
  · rfl

theorem claim6_witness :
    UUID7Generator.createMany
        (fun _ => some "01923f4a-7b3d-7123-8456-426614174000") 0 = Except.ok [] ∧
      UUID7Generator.createMany
        (fun _ => some "01923f4a-7b3d-7123-8456-426614174000") (-1) =
        Except.error ("Count must be a non-negative integer: " ++ toString (-1 : Rat)) :=
  ⟨(claim6_createMany _ 0
      (fun _ => ⟨"01923f4a-7b3d-7123-8456-426614174000", by rfl⟩)).2.2,
    (claim6_createMany _ (-1)
      (fun _ => ⟨"01923f4a-7b3d-7123-8456-426614174000", by rfl⟩)).1.mpr
      (Or.inl (by norm_num))⟩

/-- C10: the failure `create` raises for a misbehaving generator and the
failure `fromString` raises for an invalid input are the same error kind
(a plain error value in this model, a plain `Error` in the source) with the
identical message `Invalid UUIDv7 format: <value>`, so they are not
distinguishable at runtime; on a generator abort the embedded value is the
empty string. -/
theorem claim10_error_indistinguishable :
    (∀ v, UUID7Generator.isValid v = false →
      UUID7Generator.create (some v) =
          Except.error ("Invalid UUIDv7 format: " ++ v) ∧
        UUID7Generator.fromString v =
          Except.error ("Invalid UUIDv7 format: " ++ v)) ∧
    UUID7Generator.create none = Except.error ("Invalid UUIDv7 format: " ++ "") := by
  refine ⟨fun v hv => ⟨?_, ?_⟩, rfl⟩
  · simp only [UUID7Generator.create, Option.getD_some]
    rw [if_pos (Or.inr (show UUID7Generator.validateUUID7 v = false from hv))]
  · rw [UUID7Generator.fromString,
      if_pos (show UUID7Generator.validateUUID7 v = false from hv)]

theorem claim10_witness :
    UUID7Generator.create (some "x") =
        Except.error ("Invalid UUIDv7 format: " ++ "x") ∧
      UUID7Generator.fromString "x" =
        Except.error ("Invalid UUIDv7 format: " ++ "x") :=
  claim10_error_indistinguishable.1 "x" (by decide)

